import Mathlib

/-!
Shallow embedding of the core of the k8s operator replay debugger
(`pkg/storage`, `pkg/replay`, `pkg/analysis`) together with proofs about
the log store, the replay cursor, the analysis engine and the causality
builder.  Go `int64`/`int` values are modelled as `Int` (no overflow is
reachable at the bounds the code enforces), Go strings as `String`,
`time.Time` as unix seconds (`Int`), nullable SQL columns as `Option`,
and fallible calls as `Except String`.
-/

namespace Storage

/-- Maximum field lengths, from the constant block of `pkg/storage/types.go`. -/
def maxOperationTypeLength : Nat := 20

def maxResourceKindLength : Nat := 100

def maxNamespaceLength : Nat := 253

def maxNameLength : Nat := 253

def maxActorIDLength : Nat := 256

def maxUIDLength : Nat := 128

def maxResourceVersionLen : Nat := 128

def maxVerbLength : Nat := 20

def maxSpanIDLength : Nat := 128

def maxDataLength : Nat := 1048576

def maxErrorLength : Nat := 10000

def maxTriggerReasonLength : Nat := 512

/-- One recorded Kubernetes API operation (struct `Operation` of
`pkg/storage/types.go`).  `nspace` stands for the Go field `Namespace`
(`namespace` is reserved in Lean); `timestamp` is unix seconds. -/
structure Operation where
  id : Int := 0
  sessionID : String := ""
  sequenceNumber : Int := 0
  timestamp : Int := 0
  operationType : String := ""
  resourceKind : String := ""
  nspace : String := ""
  name : String := ""
  resourceData : String := ""
  error : String := ""
  durationMs : Int := 0
  actorID : String := ""
  uid : String := ""
  resourceVersion : String := ""
  generation : Int := 0
  verb : String := ""
deriving Repr, DecidableEq, Inhabited

/-- `ValidateOperation` of `pkg/storage/types.go`: the checks, in source
order.  Note the source validates `generation ≥ 0` but has no check on
`DurationMs`. -/
def validateOperation (op : Operation) : Except String Unit :=
  if op.sessionID.length = 0 then .error "session_id is empty"
  else if op.resourceKind.length < 1 || op.resourceKind.length > maxResourceKindLength then
    .error "resource_kind length out of range"
  else if op.nspace.length > maxNamespaceLength then
    .error "namespace exceeds max length"
  else if op.name.length > maxNameLength then
    .error "name exceeds max length"
  else if op.resourceData.length > maxDataLength then
    .error "resource_data exceeds max length"
  else if op.error.length > maxErrorLength then
    .error "error exceeds max length"
  else if op.actorID.length > maxActorIDLength then
    .error "actor_id exceeds max length"
  else if op.uid.length > maxUIDLength then
    .error "uid exceeds max length"
  else if op.resourceVersion.length > maxResourceVersionLen then
    .error "resource_version exceeds max length"
  else if op.verb.length > maxVerbLength then
    .error "verb exceeds max length"
  else if op.generation < 0 then
    .error "generation must be non-negative"
  else .ok ()

/-- The CHECK constraints the `operations` table of the SQLite `Schema`
(`pkg/storage/types.go`) imposes on an inserted row.  The schema carries
only length checks — there is no UNIQUE constraint on
`(session_id, sequence_number)` (the schema creates a plain, non-unique
index `idx_session_sequence`) and no check on `duration_ms`. -/
def operationRowChecks (op : Operation) : Bool :=
  op.operationType.length ≤ maxOperationTypeLength &&
  op.resourceKind.length ≤ maxResourceKindLength &&
  op.nspace.length ≤ maxNamespaceLength &&
  op.name.length ≤ maxNameLength &&
  op.actorID.length ≤ maxActorIDLength &&
  op.uid.length ≤ maxUIDLength &&
  op.resourceVersion.length ≤ maxResourceVersionLen &&
  op.verb.length ≤ maxVerbLength &&
  op.resourceData.length ≤ maxDataLength &&
  op.error.length ≤ maxErrorLength

/-- `Database.InsertOperation` of `pkg/storage/database.go`, acting on the
`operations` table modelled as the list of its rows in insertion order:
validate, then execute the prepared INSERT (which succeeds exactly when the
row satisfies the schema's CHECK constraints, appending the row). -/
def insertOperation (tbl : List Operation) (op : Operation) :
    Except String (List Operation) :=
  match validateOperation op with
  | .error e => .error ("validation failed: " ++ e)
  | .ok _ =>
    if operationRowChecks op then .ok (tbl ++ [op])
    else .error "failed to insert operation: constraint failed"

/-- Whether `insertOperation` succeeds on this table and operation. -/
def insertSucceeds (tbl : List Operation) (op : Operation) : Bool :=
  match insertOperation tbl op with
  | .ok _ => true
  | .error _ => false

/-- States of the `operations` table reachable from a fresh store by
successful `insertOperation` calls. -/
inductive Reachable : List Operation → Prop
  | fresh : Reachable []
  | insert {tbl tbl' : List Operation} {op : Operation} :
      Reachable tbl → insertOperation tbl op = .ok tbl' → Reachable tbl'

/-- No two rows of the table share the `(session_id, sequence_number)` pair. -/
def pairUnique (tbl : List Operation) : Prop :=
  tbl.Pairwise fun a b =>
    ¬(a.sessionID = b.sessionID ∧ a.sequenceNumber = b.sequenceNumber)

/-- One row of the `reconcile_spans` table (`pkg/storage/types.go`):
`end_ts` and `duration_ms` are nullable columns. -/
structure SpanRow where
  id : String := ""
  sessionID : String := ""
  actorID : String := ""
  startTs : Int := 0
  endTs : Option Int := none
  durationMs : Option Int := none
  kind : String := ""
  nspace : String := ""
  name : String := ""
  triggerUID : String := ""
  triggerRV : String := ""
  triggerReason : String := ""
  error : String := ""
deriving Repr, DecidableEq, Inhabited

/-- The SET clause of the span-closing UPDATE: overwrite `end_ts`,
`duration_ms` and `error`. -/
def applySpanUpdate (endTs durationMs : Int) (errMsg : String)
    (r : SpanRow) : SpanRow :=
  { r with
      endTs := some endTs
      durationMs := some durationMs
      error := errMsg }

/-- `Database.EndReconcileSpan` of `pkg/storage/database.go` (the
`SQLiteStore` and `MongoStore` variants are identical in this respect):
after asserting the id non-empty it executes
`UPDATE reconcile_spans SET end_ts = ?, duration_ms = ?, error = ? WHERE id = ?`
and returns success without inspecting the number of affected rows. -/
def endReconcileSpan (tbl : List SpanRow) (spanID : String)
    (endTs durationMs : Int) (errMsg : String) : Except String (List SpanRow) :=
  if spanID.length = 0 then .error "empty string: span id"
  else .ok (tbl.map fun r =>
    if r.id = spanID then applySpanUpdate endTs durationMs errMsg r else r)

end Storage

namespace Analysis

open Storage

/-- Bound constants of `pkg/analysis/analyzer.go`. -/
def maxAnalysisOperations : Nat := 100000

def loopDetectionWindow : Nat := 100

/-- A detected pattern (`Pattern` of `pkg/analysis/analyzer.go`). -/
structure Pattern where
  startIndex : Nat
  endIndex : Nat
  repeatCount : Nat
  operationKind : String
  description : String
deriving Repr, DecidableEq, Inhabited

/-- `compareWindows` of `pkg/analysis/analyzer.go`: two windows of length
`size` match when every position agrees on the 4-tuple
`(op_type, resource_kind, namespace, name)`; out-of-bounds windows never
match. -/
def compareWindows (ops : List Operation) (idx1 idx2 size : Nat) : Bool :=
  if idx1 + size > ops.length || idx2 + size > ops.length then false
  else (List.range size).all fun i =>
    let op1 := ops.getD (idx1 + i) default
    let op2 := ops.getD (idx2 + i) default
    op1.operationType == op2.operationType &&
    op1.resourceKind == op2.resourceKind &&
    op1.nspace == op2.nspace &&
    op1.name == op2.name

/-- The match-extension loop of `checkPatternAt`: starting from
`currentIdx` with `matchCount` matches so far, keep matching the window at
`currentIdx` against the next one while fewer than `maxMatches` matches
were found (the remaining allowance is the structural argument) and
`currentIdx + 2*windowSize ≤ maxIdx`.  Returns the final
`(currentIdx, matchCount)`. -/
def extendMatches (ops : List Operation) (windowSize maxIdx : Nat) :
    Nat → Nat → Nat → Nat × Nat
  | 0, currentIdx, matchCount => (currentIdx, matchCount)
  | allowance + 1, currentIdx, matchCount =>
    if currentIdx + windowSize * 2 ≤ maxIdx &&
        compareWindows ops currentIdx (currentIdx + windowSize) windowSize then
      extendMatches ops windowSize maxIdx allowance
        (currentIdx + windowSize) (matchCount + 1)
    else (currentIdx, matchCount)

/-- `checkPatternAt` of `pkg/analysis/analyzer.go`: require room for two
windows, extend matches (at most `maxMatches = 10`), and emit a pattern
only when at least two matches were found.  Note the emitted
`EndIndex` is `currentIdx - 1`, i.e. the last index of the last
window that was *compared from*, not of the last matching window. -/
def checkPatternAt (ops : List Operation) (startIdx windowSize maxIdx : Nat) :
    Option Pattern :=
  if startIdx + windowSize * 2 > maxIdx then none
  else
    let r := extendMatches ops windowSize maxIdx 10 startIdx 0
    if r.2 < 2 then none
    else some
      { startIndex := startIdx
        endIndex := r.1 - 1
        repeatCount := r.2
        operationKind := (ops.getD startIdx default).resourceKind
        description := "Repeated " ++ (ops.getD startIdx default).resourceKind ++
          " operations " ++ toString r.2 ++ " times" }

/-- The scan loop of `DetectLoops`: walk `i` upward while
`i < opCount - windowSize` and fewer than 100 patterns were emitted;
on a hit resume from `EndIndex + 1`, otherwise advance by one.  `fuel`
bounds the number of iterations; since `i` strictly increases each
iteration, `opCount + 1` iterations always reach the exit condition. -/
def detectLoopsAux (ops : List Operation) (windowSize opCount : Nat) :
    Nat → Nat → List Pattern → List Pattern
  | 0, _, patterns => patterns
  | fuel + 1, i, patterns =>
    if i + windowSize < opCount ∧ patterns.length < 100 then
      match checkPatternAt ops i windowSize opCount with
      | some p => detectLoopsAux ops windowSize opCount fuel
          (p.endIndex + 1) (patterns ++ [p])
      | none => detectLoopsAux ops windowSize opCount fuel (i + 1) patterns
    else patterns

/-- `DetectLoops` of `pkg/analysis/analyzer.go`: validate the operation
count and the window size, then scan. -/
def detectLoops (ops : List Operation) (windowSize : Nat) :
    Except String (List Pattern) :=
  if ops.length > maxAnalysisOperations then
    .error "operation count out of range"
  else if windowSize < 2 ∨ windowSize > loopDetectionWindow then
    .error "window size out of range"
  else .ok (detectLoopsAux ops windowSize ops.length (ops.length + 1) 0 [])

/-- An operation exceeding the duration threshold (`SlowOperation` of
`pkg/analysis/analyzer.go`). -/
structure SlowOperation where
  index : Nat
  operation : Operation
  durationMs : Int
deriving Repr, DecidableEq, Inhabited

/-- The collection loop of `FindSlowOperations`: walk the indexed
operations in order, appending every one whose duration reaches the
threshold, stopping once 100 have been collected. -/
def slowLoop (thresholdMs : Int) :
    List (Nat × Operation) → List SlowOperation → List SlowOperation
  | [], acc => acc
  | (i, op) :: rest, acc =>
    if acc.length < 100 then
      if op.durationMs ≥ thresholdMs then
        slowLoop thresholdMs rest (acc ++ [⟨i, op, op.durationMs⟩])
      else slowLoop thresholdMs rest acc
    else acc

/-- `FindSlowOperations` of `pkg/analysis/analyzer.go`: validate the
operation count and the threshold range `[1, 1000000]`, then collect. -/
def findSlowOperations (ops : List Operation) (thresholdMs : Int) :
    Except String (List SlowOperation) :=
  if ops.length > maxAnalysisOperations then
    .error "operation count out of range"
  else if thresholdMs < 1 ∨ thresholdMs > 1000000 then
    .error "threshold milliseconds out of range"
  else .ok (slowLoop thresholdMs ops.enum [])

/-- What §4.3.2 of the spec asks of the slow-operation selector, written
from the spec's words: all operations with `duration_ms ≥ threshold_ms`,
preserving original order, up to 100. -/
def slowOperationsSpec (ops : List Operation) (thresholdMs : Int) :
    List SlowOperation :=
  (((ops.enum.filter fun p => thresholdMs ≤ p.2.durationMs).take 100).map
    fun p => ⟨p.1, p.2, p.2.durationMs⟩)

end Analysis

namespace Replay

open Storage

/-- Bound constants of `pkg/replay/engine.go`. -/
def maxOperationsInMemory : Nat := 100000

def maxStepSize : Int := 1000

/-- The replay engine state (`ReplayEngine` of `pkg/replay/engine.go`).
The state cache (a Go map from `"{kind}/{ns}/{name}"` to the deserialized
payload) is modelled as an association list with distinct keys; the
deserialized `runtime.Object` is opaque here and kept as a `String`. -/
structure ReplayEngine where
  operations : List Operation
  currentIndex : Int
  maxIndex : Int
  sessionID : String
  stateCache : List (String × String)
  maxCacheSize : Int
deriving Repr, Inhabited

/-- `NewReplayEngine` of `pkg/replay/engine.go`: reject an empty session
id and more than `maxOperationsInMemory` operations; a non-positive cache
size defaults to 1000; `maxIndex` is the number of loaded operations and
the cursor starts at 0. -/
def newReplayEngine (ops : List Operation) (sessionID : String)
    (maxCacheSize : Int) : Option ReplayEngine :=
  if sessionID.length = 0 then none
  else if ops.length > maxOperationsInMemory then none
  else some
    { operations := ops
      currentIndex := 0
      maxIndex := ops.length
      sessionID := sessionID
      stateCache := []
      maxCacheSize := if maxCacheSize ≤ 0 then 1000 else maxCacheSize }

/-- Map update on the association-list cache: overwrite the existing key
or append a new entry, as a Go map assignment does. -/
def cacheInsert (cache : List (String × String)) (key obj : String) :
    List (String × String) :=
  if cache.any fun e => e.1 = key then
    cache.map fun e => if e.1 = key then (key, obj) else e
  else cache ++ [(key, obj)]

/-- `updateCache` of `pkg/replay/engine.go`.  `decode` stands for
`json.Unmarshal` of the payload (external to the core; `none` is a
deserialization failure).  An empty payload is a no-op; a full cache is a
hard error checked *before* deserialization; otherwise the decoded object
is stored under `"{kind}/{ns}/{name}"`. -/
def updateCache (decode : String → Option String) (e : ReplayEngine)
    (op : Operation) : Except String ReplayEngine :=
  if op.resourceData.length = 0 then .ok e
  else if e.maxCacheSize ≤ (e.stateCache.length : Int) then
    .error "cache size limit reached"
  else
    match decode op.resourceData with
    | none => .error "failed to unmarshal resource"
    | some obj =>
      let key := op.resourceKind ++ "/" ++ op.nspace ++ "/" ++ op.name
      .ok { e with stateCache := cacheInsert e.stateCache key obj }

/-- Result of a step call: the returned operation (if any), the returned
error message (if any), and the engine state afterwards. -/
structure StepResult where
  op : Option Operation
  err : Option String
  engine : ReplayEngine

/-- `StepForward` of `pkg/replay/engine.go`: fail at the end; otherwise
fetch the current operation, advance the cursor, and only then update the
cache — a cache failure is reported together with the operation, but the
cursor stays advanced. -/
def stepForward (decode : String → Option String) (e : ReplayEngine) :
    StepResult :=
  if e.maxIndex ≤ e.currentIndex then
    ⟨none, some "at end of replay", e⟩
  else
    let op := e.operations.getD e.currentIndex.toNat default
    let e' := { e with currentIndex := e.currentIndex + 1 }
    match updateCache decode e' op with
    | .ok e'' => ⟨some op, none, e''⟩
    | .error msg => ⟨some op, some ("cache update failed: " ++ msg), e'⟩

/-- `StepBackward` of `pkg/replay/engine.go`: fail at index 0, otherwise
decrement and return the new current operation (no cache change). -/
def stepBackward (e : ReplayEngine) : StepResult :=
  if e.currentIndex ≤ 0 then ⟨none, some "at beginning of replay", e⟩
  else
    let e' := { e with currentIndex := e.currentIndex - 1 }
    ⟨some (e.operations.getD e'.currentIndex.toNat default), none, e'⟩

/-- `StepN` of `pkg/replay/engine.go`: reject `|n| > maxStepSize`
(leaving the state unchanged), otherwise move by `n` saturating at
`[0, maxIndex]`. -/
def stepN (e : ReplayEngine) (n : Int) : Except String ReplayEngine :=
  if n < -maxStepSize ∨ n > maxStepSize then .error "step count out of range"
  else
    let target := e.currentIndex + n
    let target := if target < 0 then 0 else target
    let target := if target > e.maxIndex then e.maxIndex else target
    .ok { e with currentIndex := target }

/-- `Reset` of `pkg/replay/engine.go`: back to index 0 with an empty
cache. -/
def reset (e : ReplayEngine) : ReplayEngine :=
  { e with currentIndex := 0, stateCache := [] }

/-- One cursor command, for stating the replay-cursor invariant. -/
inductive Cmd where
  | forward
  | backward
  | jump (n : Int)
  | restart
deriving Repr, DecidableEq

/-- Apply one command to the engine, keeping whatever state the source
call leaves behind (failed calls leave the state unchanged except that
`StepForward` advances before its cache update can fail). -/
def applyCmd (decode : String → Option String) (e : ReplayEngine) :
    Cmd → ReplayEngine
  | .forward => (stepForward decode e).engine
  | .backward => (stepBackward e).engine
  | .jump n =>
    match stepN e n with
    | .ok e' => e'
    | .error _ => e
  | .restart => reset e

/-- Run a command list left to right. -/
def runCmds (decode : String → Option String) (e : ReplayEngine)
    (cmds : List Cmd) : ReplayEngine :=
  cmds.foldl (applyCmd decode) e

/-- Statistics record (`OperationStats` of `pkg/replay/engine.go`). -/
structure OperationStats where
  totalOps : Int
  getOps : Int
  updateOps : Int
  createOps : Int
  deleteOps : Int
  errorCount : Int
  avgDurationMs : Int
  maxDurationMs : Int
  minDurationMs : Int
deriving Repr, DecidableEq, Inhabited

/-- The per-operation accumulation step of `CalculateStats`: bump the
per-type counters, the error count, the running duration total and the
min/max durations. -/
def statsStep (acc : OperationStats × Int) (op : Operation) :
    OperationStats × Int :=
  let s := acc.1
  let s :=
    if op.operationType = "GET" then { s with getOps := s.getOps + 1 }
    else if op.operationType = "UPDATE" then { s with updateOps := s.updateOps + 1 }
    else if op.operationType = "CREATE" then { s with createOps := s.createOps + 1 }
    else if op.operationType = "DELETE" then { s with deleteOps := s.deleteOps + 1 }
    else s
  let s := if op.error.length > 0 then { s with errorCount := s.errorCount + 1 } else s
  let total := acc.2 + op.durationMs
  let s := if op.durationMs > s.maxDurationMs then { s with maxDurationMs := op.durationMs } else s
  let s := if op.durationMs < s.minDurationMs then { s with minDurationMs := op.durationMs } else s
  (s, total)

/-- `CalculateStats` of `pkg/replay/engine.go`: a single pass over the
loaded operations; `MinDurationMs` starts from the sentinel `999999999`,
and the average (Go integer division, truncating toward zero) is computed
only when at least one operation is loaded. -/
def calculateStats (e : ReplayEngine) : OperationStats :=
  let init : OperationStats :=
    { totalOps := e.operations.length, getOps := 0, updateOps := 0,
      createOps := 0, deleteOps := 0, errorCount := 0, avgDurationMs := 0,
      maxDurationMs := 0, minDurationMs := 999999999 }
  let r := e.operations.foldl statsStep (init, 0)
  if r.1.totalOps > 0 then
    { r.1 with avgDurationMs := Int.tdiv r.2 r.1.totalOps }
  else r.1

end Replay

namespace Causality

open Storage

/-- Bound constants of `pkg/analysis/causality.go`.  Note the source sets
`defaultMaxChains = 20`. -/
def maxCausalityNodes : Nat := 20000

def maxCausalityEdges : Nat := 50000

def defaultMaxChains : Int := 20

def defaultMaxDepth : Int := 6

def maxCausalityChains : Int := 100

/-- In-memory reconcile span as the causality builder consumes it
(struct `ReconcileSpan` of `pkg/storage`); `endTs = none` models Go's
zero `time.Time` (`EndTime.IsZero()`). -/
structure ReconcileSpan where
  id : String := ""
  sessionID : String := ""
  actorID : String := ""
  startTs : Int := 0
  endTs : Option Int := none
  durationMs : Int := 0
  kind : String := ""
  nspace : String := ""
  name : String := ""
  triggerUID : String := ""
  triggerRV : String := ""
  triggerReason : String := ""
  error : String := ""
deriving Repr, DecidableEq, Inhabited

/-- A write operation together with its original index
(`opWithIndex` of `pkg/analysis/causality.go`). -/
structure OpWithIndex where
  op : Operation
  index : Nat
deriving Repr, DecidableEq, Inhabited

/-- A write with its parsed integer resource version
(`rvOp` of `pkg/analysis/causality.go`). -/
structure RvOp where
  op : Operation
  index : Nat
  rv : Int
deriving Repr, DecidableEq, Inhabited

/-- Node kind (`CausalityNodeType`). -/
inductive CausalityNodeType where
  | op
  | span
deriving Repr, DecidableEq, Inhabited

/-- Edge kind (`CausalityEdgeType`). -/
inductive CausalityEdgeType where
  | opToSpan
  | spanToOp
deriving Repr, DecidableEq, Inhabited

/-- A directed edge (`CausalityEdge`). -/
structure CausalityEdge where
  fromID : String
  toID : String
  edgeType : CausalityEdgeType
deriving Repr, DecidableEq, Inhabited

/-- A node of the causality graph (`CausalityNode`). -/
structure CausalityNode where
  id : String := ""
  type : CausalityNodeType := .op
  actorID : String := ""
  kind : String := ""
  nspace : String := ""
  name : String := ""
  timestamp : Int := 0
  resourceVer : String := ""
  uid : String := ""
  durationMs : Int := 0
  error : String := ""
  resourceData : String := ""
deriving Repr, DecidableEq, Inhabited

/-- The graph (`CausalityGraph`). -/
structure CausalityGraph where
  nodes : List CausalityNode
  edges : List CausalityEdge
deriving Repr, DecidableEq, Inhabited

/-- `opNodeID` of `pkg/analysis/causality.go`. -/
def opNodeID (op : Operation) (index : Nat) : String :=
  if op.sequenceNumber > 0 then "op:" ++ toString op.sequenceNumber
  else if op.id > 0 then "op:" ++ toString op.id
  else "op:" ++ toString index

/-- `spanNodeID` of `pkg/analysis/causality.go` (`UnixNano` of a
second-resolution instant is `10^9` times its unix seconds). -/
def spanNodeID (span : ReconcileSpan) : String :=
  if span.id.length > 0 then "span:" ++ span.id
  else "span:" ++ toString (span.startTs * 1000000000)

/-- The candidate scan of `findExactMatch`: skip candidates whose
timestamp is after the span start; among the rest keep the one whose
timestamp is latest (the first such on ties). -/
def bestExact (startTs : Int) : List OpWithIndex → Option OpWithIndex →
    Option OpWithIndex
  | [], best => best
  | c :: rest, best =>
    if startTs < c.op.timestamp then bestExact startTs rest best
    else
      match best with
      | none => bestExact startTs rest (some c)
      | some b =>
        if b.op.timestamp < c.op.timestamp then bestExact startTs rest (some c)
        else bestExact startTs rest (some b)

/-- `findExactMatch` of `pkg/analysis/causality.go`: look the span's
`"{trigger_uid}|{trigger_rv}"` key up in the exact write index and scan
its candidates. -/
def findExactMatch (exactByKey : String → List OpWithIndex)
    (span : ReconcileSpan) : Option OpWithIndex :=
  let candidates := exactByKey (span.triggerUID ++ "|" ++ span.triggerRV)
  if candidates = [] then none
  else bestExact span.startTs candidates none

/-- The candidate scan of `findFallbackMatch`: skip candidates whose
`rv` exceeds the target or whose timestamp is after the span start;
prefer the greater `rv`, breaking ties by the later timestamp. -/
def bestFallback (startTs targetRV : Int) : List RvOp → Option RvOp →
    Option RvOp
  | [], best => best
  | c :: rest, best =>
    if targetRV < c.rv then bestFallback startTs targetRV rest best
    else if startTs < c.op.timestamp then bestFallback startTs targetRV rest best
    else
      match best with
      | none => bestFallback startTs targetRV rest (some c)
      | some b =>
        if b.rv < c.rv then bestFallback startTs targetRV rest (some c)
        else if c.rv = b.rv ∧ b.op.timestamp < c.op.timestamp then
          bestFallback startTs targetRV rest (some c)
        else bestFallback startTs targetRV rest (some b)

/-- `findFallbackMatch` of `pkg/analysis/causality.go`: parse the
trigger's resource version as an integer and scan the per-uid
version-sorted index. -/
def findFallbackMatch (rvByUID : String → List RvOp)
    (span : ReconcileSpan) : Option OpWithIndex :=
  match span.triggerRV.toInt? with
  | none => none
  | some targetRV =>
    let candidates := rvByUID span.triggerUID
    if candidates = [] then none
    else
      match bestFallback span.startTs targetRV candidates none with
      | none => none
      | some b => some ⟨b.op, b.index⟩

/-- The trigger-resolution step of `buildSpanEdges`
(`pkg/analysis/causality.go`, the op→span half of the per-span loop):
when the span carries both trigger fields, try the exact index first and
only on failure the fallback index; the added edge goes from the matched
write's node to the span's node. -/
def spanTriggerEdge (exactByKey : String → List OpWithIndex)
    (rvByUID : String → List RvOp) (span : ReconcileSpan) :
    Option CausalityEdge :=
  if span.triggerUID.length > 0 ∧ span.triggerRV.length > 0 then
    match findExactMatch exactByKey span with
    | some m => some ⟨opNodeID m.op m.index, spanNodeID span, .opToSpan⟩
    | none =>
      match findFallbackMatch rvByUID span with
      | some f => some ⟨opNodeID f.op f.index, spanNodeID span, .opToSpan⟩
      | none => none
  else none

/-- A causal chain (`CausalityChain` of `pkg/analysis/causality.go`). -/
structure CausalityChain where
  nodeIDs : List String
  length : Nat
  fanOut : Nat
deriving Repr, DecidableEq, Inhabited

/-- Insert `x` into `l` before the first element `y` with `lt x y`. -/
def insertByLt {α : Type} (lt : α → α → Bool) (x : α) : List α → List α
  | [] => [x]
  | y :: ys => if lt x y then x :: y :: ys else y :: insertByLt lt x ys

/-- Insertion sort by the strict comparator `lt` (one sorted
rearrangement, as `sort.Slice` produces). -/
def sortByLt {α : Type} (lt : α → α → Bool) : List α → List α
  | [] => []
  | x :: xs => insertByLt lt x (sortByLt lt xs)

/-- Lexicographic order on character lists by code point. -/
def charsLt : List Char → List Char → Bool
  | [], [] => false
  | [], _ :: _ => true
  | _ :: _, [] => false
  | a :: as, b :: bs =>
    if a.toNat < b.toNat then true
    else if b.toNat < a.toNat then false
    else charsLt as bs

/-- Go's `<` on strings (lexicographic; byte-wise and code-point-wise
agree on the ASCII node ids this graph uses). -/
def strLt (a b : String) : Bool := charsLt a.data b.data

/-- Drop repeated strings, keeping first occurrences (the key set of a Go
map, ordered canonically by the later sort). -/
def dedupStrings (seen : List String) : List String → List String
  | [] => []
  | x :: xs =>
    if seen.contains x then dedupStrings seen xs
    else x :: dedupStrings (x :: seen) xs

/-- The adjacency list of `buildAdjacency`
(`pkg/analysis/causality.go`): the targets of all edges leaving `k`, in
edge order, then sorted ascending. -/
def adjOf (edges : List CausalityEdge) (k : String) : List String :=
  sortByLt strLt ((edges.filter fun e => e.fromID = k).map fun e => e.toID)

/-- The `fanOut` count of `buildAdjacency`: outgoing `op_to_span` edges
of `k`. -/
def fanOutOf (edges : List CausalityEdge) (k : String) : Nat :=
  (edges.filter fun e => e.fromID = k ∧ e.edgeType = .opToSpan).length

/-- `indexNodes` lookup: the last node of the list carrying this id
(later entries overwrite earlier ones in the Go map). -/
def nodeTypeOf (nodes : List CausalityNode) (k : String) :
    Option CausalityNodeType :=
  ((nodes.filter fun n => n.id = k).getLast?).map fun n => n.type

/-- `collectRootNodes` of `pkg/analysis/causality.go`: sources of at
least one `op_to_span` edge whose node is an Operation node, sorted
ascending and without duplicates. -/
def rootsOf (edges : List CausalityEdge) (nodes : List CausalityNode) :
    List String :=
  sortByLt strLt
    (dedupStrings []
      ((edges.map fun e => e.fromID).filter fun k =>
        0 < fanOutOf edges k ∧ nodeTypeOf nodes k = some .op))

/-- The DFS stack loop inside `generateChains`
(`pkg/analysis/causality.go`) for a single root.  The stack holds paths
with the most recently visited node first (Go appends at the slice end
and pops from the end; head-cons/head-pop is the same LIFO).  A popped
path becomes a chain when it reached `maxDepth` or its last node has no
successors; otherwise its unvisited successors are pushed.  `fuel`
bounds the iteration count; the caller passes a budget exceeding what
the source's own bounds (`maxChains`, `maxDepth`, the cycle guard)
allow the loop to consume. -/
def chainLoop (adj : String → List String) (rootFan maxDepth maxChains : Nat) :
    Nat → List (List String) → List CausalityChain → List CausalityChain
  | 0, _, chains => chains
  | _ + 1, [], chains => chains
  | fuel + 1, path :: stack, chains =>
    if maxChains ≤ chains.length then chains
    else if maxDepth ≤ path.length ∨ adj (path.headD "") = [] then
      chainLoop adj rootFan maxDepth maxChains fuel stack
        (chains ++ [⟨path.reverse, path.length, rootFan⟩])
    else
      chainLoop adj rootFan maxDepth maxChains fuel
        ((adj (path.headD "")).foldl
          (fun st nextID =>
            if path.contains nextID then st else (nextID :: path) :: st)
          stack)
        chains

/-- `generateChains` of `pkg/analysis/causality.go`: run the DFS from
each root in order while fewer than `maxChains` chains were collected. -/
def generateChains (adj : String → List String) (fanOut : String → Nat)
    (maxDepth maxChains fuel : Nat) (roots : List String) :
    List CausalityChain :=
  roots.foldl
    (fun chains rootID =>
      if chains.length < maxChains then
        chainLoop adj (fanOut rootID) maxDepth maxChains fuel
          [[rootID]] chains
      else chains)
    []

/-- `sortChains` of `pkg/analysis/causality.go`: length descending,
ties by root fan-out descending. -/
def sortChains (chains : List CausalityChain) : List CausalityChain :=
  sortByLt
    (fun c1 c2 =>
      if c1.length = c2.length then c2.fanOut < c1.fanOut
      else c2.length < c1.length)
    chains

/-- `normalizeChainLimits` of `pkg/analysis/causality.go`: non-positive
depth defaults to 6, non-positive chain count defaults to
`defaultMaxChains` (20 in the source), then the chain count is capped at
100. -/
def normalizeChainLimits (maxDepth maxChains : Int) : Int × Int :=
  let d := if maxDepth ≤ 0 then defaultMaxDepth else maxDepth
  let m := if maxChains ≤ 0 then defaultMaxChains else maxChains
  let m := if m > maxCausalityChains then maxCausalityChains else m
  (d, m)

/-- Iteration budget for the DFS loop; the source's loop terminates on
its own (`maxChains` caps the appends and the cycle guard caps every
path), and this budget exceeds the iterations it can consume on graphs
within the documented caps. -/
def chainFuel (graph : CausalityGraph) (maxDepth maxChains : Nat) : Nat :=
  (graph.edges.length + 2) * (maxDepth + 2) * (maxChains + 2) +
    graph.nodes.length + 100

/-- `BuildCausalityChains` of `pkg/analysis/causality.go`: `none` models
the `nil` return when the `maxDepth` range assertion fails; otherwise
normalize the limits, build adjacency, fan-out and roots, enumerate and
sort. -/
def buildCausalityChains (graph : CausalityGraph)
    (maxDepth maxChains : Int) : Option (List CausalityChain) :=
  if maxDepth < 0 ∨ maxDepth > (Analysis.maxAnalysisOperations : Int) then none
  else
    let dm := normalizeChainLimits maxDepth maxChains
    some (sortChains
      (generateChains (adjOf graph.edges) (fanOutOf graph.edges)
        dm.1.toNat dm.2.toNat
        (chainFuel graph dm.1.toNat dm.2.toNat)
        (rootsOf graph.edges graph.nodes)))

end Causality

namespace Instances

open Storage Analysis Replay Causality

/-- A valid operation (mirrors the first row of the repository's
duplicate-sequence test). -/
def opA : Operation :=
  { sessionID := "dup-session", sequenceNumber := 1, timestamp := 100,
    operationType := "GET", resourceKind := "Pod", nspace := "default",
    name := "demo", durationMs := 10 }

/-- A second valid operation with the same
`(session_id, sequence_number)` pair as `opA` (the second row of the same
test). -/
def opA2 : Operation :=
  { sessionID := "dup-session", sequenceNumber := 1, timestamp := 101,
    operationType := "GET", resourceKind := "Pod", nspace := "default",
    name := "demo-2", durationMs := 12 }

/-- An operation whose fields all satisfy the declared invariants except
that `duration_ms` is negative. -/
def opNegDur : Operation :=
  { sessionID := "neg-session", sequenceNumber := 1, timestamp := 100,
    operationType := "GET", resourceKind := "Pod", nspace := "default",
    name := "demo", durationMs := -1 }

/-- A stored open span with id `"s1"`. -/
def spanRowA : SpanRow :=
  { id := "s1", sessionID := "sess", actorID := "actor", startTs := 50,
    kind := "Pod", nspace := "default", name := "demo" }

/-- The repeated operation of scenario S3: identical
`(op_type, resource_kind, namespace, name)` 4-tuple throughout. -/
def opLoop : Operation :=
  { sessionID := "s", operationType := "GET", resourceKind := "Pod",
    nspace := "default", name := "loop-pod" }

/-- Scenario S3's input: 30 copies of `opLoop` (three repetitions of a
10-operation GET Pod block). -/
def loopOps30 : List Operation := List.replicate 30 opLoop

/-- The single pattern the source emits on `loopOps30` with window 10. -/
def s3Pattern : Pattern :=
  { startIndex := 0, endIndex := 19, repeatCount := 2,
    operationKind := "Pod",
    description := "Repeated Pod operations 2 times" }

/-- One operation of scenario S4. -/
def s4op (i : Nat) (d : Int) : Operation :=
  { sessionID := "s", operationType := "GET", resourceKind := "Pod",
    nspace := "default", name := "p" ++ toString i, durationMs := d }

/-- Scenario S4's input: durations 100,110,…,190 with indices 2, 5, 8
raised to 1500, 1800, 2000. -/
def s4ops : List Operation :=
  [s4op 0 100, s4op 1 110, s4op 2 1500, s4op 3 130, s4op 4 140,
   s4op 5 1800, s4op 6 160, s4op 7 170, s4op 8 2000, s4op 9 190]

/-- Span node ids of a graph offering 25 one-step chains. -/
def spanIds : List String :=
  (List.range 25).map fun i => "span:s" ++ toString (100 + i)

/-- Nodes of that graph: one Operation node and 25 Span nodes. -/
def bigNodes : List CausalityNode :=
  ({ id := "op:1", type := .op } : CausalityNode) ::
    spanIds.map fun s => { id := s, type := .span }

/-- Edges of that graph: an `op_to_span` edge from the Operation node to
every Span node. -/
def bigEdges : List CausalityEdge :=
  spanIds.map fun s => ⟨"op:1", s, .opToSpan⟩

/-- A causality graph offering 25 enumerable chains (more than either
chain-count default). -/
def bigGraph : CausalityGraph := ⟨bigNodes, bigEdges⟩

/-- A write operation carrying `(uid, resource_version)` metadata, for
the exact-trigger-match scenario. -/
def writeOp : Operation :=
  { sessionID := "s", sequenceNumber := 1, timestamp := 100,
    operationType := "UPDATE", resourceKind := "ConfigMap",
    nspace := "default", name := "cm", durationMs := 5, actorID := "A",
    uid := "u1", resourceVersion := "5" }

/-- A second, earlier write with the same `(uid, resource_version)`. -/
def writeOpEarly : Operation :=
  { writeOp with sequenceNumber := 2, timestamp := 90 }

/-- The exact write index holding both writes under key `"u1|5"`. -/
def exactIdx : String → List OpWithIndex := fun k =>
  if k = "u1|5" then [⟨writeOpEarly, 1⟩, ⟨writeOp, 0⟩] else []

/-- A span triggered by `(u1, 5)` starting after both writes. -/
def spanS1 : ReconcileSpan :=
  { id := "s1", sessionID := "s", actorID := "B", startTs := 102,
    endTs := some 104, kind := "ConfigMap", nspace := "default",
    name := "cm", triggerUID := "u1", triggerRV := "5" }

/-- One arbitrary fallback index, for showing it is never consulted. -/
def rvIdxA : String → List RvOp := fun _ => []

/-- A second, different fallback index. -/
def rvIdxB : String → List RvOp := fun k =>
  if k = "u1" then [⟨writeOpEarly, 1, 5⟩] else []

/-- The chain list the enumerator produces on `bigGraph` with both
limit arguments non-positive. -/
def bigChains : List CausalityChain :=
  (buildCausalityChains bigGraph 0 0).getD []

/-- An engine whose cache is at capacity (capacity 1, one entry) and
whose single operation carries a payload, for the step-forward failure
case. -/
def fullCacheEngine : ReplayEngine :=
  { operations := [{ opLoop with resourceData := "x" }],
    currentIndex := 0, maxIndex := 1, sessionID := "s",
    stateCache := [("k", "v")], maxCacheSize := 1 }

end Instances

section Theorems

open Storage Analysis Replay Causality Instances

/-- C10: `CalculateStats` on a replay engine loaded with zero operations
succeeds and returns `TotalOps = 0`, `ErrorCount = 0`,
`AvgDurationMs = 0`, `MaxDurationMs = 0` and the sentinel
`MinDurationMs = 999999999`. -/
theorem calculateStats_empty_engine :
    (Replay.newReplayEngine [] "session" 0).map Replay.calculateStats =
      some { totalOps := 0, getOps := 0, updateOps := 0, createOps := 0,
             deleteOps := 0, errorCount := 0, avgDurationMs := 0,
             maxDurationMs := 0, minDurationMs := 999999999 } := rfl

/-- C4: an operation with `duration_ms = -1` and every other field
within the declared invariants passes `ValidateOperation` and is
persisted by `InsertOperation` — the code has no insert-time check of
invariant I3 for operations, contradicting the spec's
"enforced at insert". -/
theorem insertOperation_accepts_negative_duration :
    Storage.validateOperation Instances.opNegDur = .ok () ∧
    Storage.insertOperation [] Instances.opNegDur = .ok [Instances.opNegDur] ∧
    Instances.opNegDur.durationMs < 0 :=
  ⟨rfl, rfl, by decide⟩

/-- C2 (counterexample): on scenario S3's input — 30 operations that are
three repetitions of a 10-operation GET Pod block — `DetectLoops` with
window 10 returns one pattern whose `EndIndex` is 19, not 29 as the
claim states. -/
theorem detectLoops_s3_endIndex_not_29 :
    Analysis.detectLoops Instances.loopOps30 10 = .ok [Instances.s3Pattern] ∧
    Instances.s3Pattern.endIndex ≠ 29 :=
  ⟨rfl, by decide⟩

/-- C2 (amended): on scenario S3's input, `DetectLoops` with window 10
returns exactly one pattern, with `StartIndex = 0`, `EndIndex = 19`
(`currentIdx - 1`, the last index of the last window compared *from*)
and `RepeatCount = 2`. -/
theorem detectLoops_s3_single_pattern :
    Analysis.detectLoops Instances.loopOps30 10 = .ok [Instances.s3Pattern] :=
  rfl

/-- C3 (counterexample): `EndReconcileSpan` on a store whose only span
has id `"s1"`, called with the absent id `"ghost"`, reports success (the
UPDATE matches no row and the row count is never inspected) and leaves
the spans table unchanged — it does not fail with NotFound. -/
theorem endReconcileSpan_unknown_id_reports_success :
    Storage.endReconcileSpan [Instances.spanRowA] "ghost" 100 5 "" =
      .ok [Instances.spanRowA] := rfl

/-- Updating rows by id is the identity when no row carries the id. -/
theorem map_update_id_of_no_match (spanID : String)
    (f : Storage.SpanRow → Storage.SpanRow) :
    ∀ (tbl : List Storage.SpanRow), (∀ r ∈ tbl, r.id ≠ spanID) →
      (tbl.map fun r => if r.id = spanID then f r else r) = tbl
  | [], _ => rfl
  | r :: rest, h => by
    have h1 : r.id ≠ spanID := h r (List.mem_cons_self _ _)
    have h2 := map_update_id_of_no_match spanID f rest
      fun x hx => h x (List.mem_cons_of_mem _ hx)
    simp [h1, h2]

/-- A non-empty string has non-zero length. -/
theorem length_ne_zero_of_ne_empty (s : String) (h : s ≠ "") :
    ¬ s.length = 0 := by
  intro hz
  apply h
  cases s with
  | mk data =>
    have hdl : data.length = 0 := hz
    have hd : data = [] := List.length_eq_zero.mp hdl
    simp [hd]

/-- C3 (amended): closing a span id that is not present in the store
succeeds (no error is reported) and leaves the spans table unchanged. -/
theorem endReconcileSpan_unknown_id_noop (tbl : List Storage.SpanRow)
    (spanID : String) (endTs durationMs : Int) (msg : String)
    (hid : spanID ≠ "") (hmiss : ∀ r ∈ tbl, r.id ≠ spanID) :
    Storage.endReconcileSpan tbl spanID endTs durationMs msg = .ok tbl := by
  have hlen : ¬ spanID.length = 0 := length_ne_zero_of_ne_empty spanID hid
  unfold Storage.endReconcileSpan
  rw [if_neg hlen]
  exact congrArg Except.ok
    (map_update_id_of_no_match spanID
      (Storage.applySpanUpdate endTs durationMs msg) tbl hmiss)

/-- Witness for the amended C3 at a concrete store and id. -/
theorem endReconcileSpan_unknown_id_noop_witness :
    Storage.endReconcileSpan [Instances.spanRowA] "missing" 7 3 "e" =
      .ok [Instances.spanRowA] :=
  endReconcileSpan_unknown_id_noop [Instances.spanRowA] "missing" 7 3 "e"
    (by decide) (by decide)

/-- C1 (counterexample): the state holding `opA` and `opA2`, which share
`(session_id, sequence_number) = ("dup-session", 1)`, is reachable by two
successful `InsertOperation` calls from a fresh store (the schema has no
UNIQUE constraint on the pair), so the pair is not unique in a reachable
log. -/
theorem duplicate_pair_state_reachable :
    Storage.Reachable [Instances.opA, Instances.opA2] ∧
    ¬ Storage.pairUnique [Instances.opA, Instances.opA2] := by
  constructor
  · exact @Storage.Reachable.insert [Instances.opA]
      [Instances.opA, Instances.opA2] Instances.opA2
      (@Storage.Reachable.insert [] [Instances.opA] Instances.opA
        Storage.Reachable.fresh rfl) rfl
  · intro h
    exact (List.pairwise_cons.mp h).1 Instances.opA2
      (List.mem_cons_self _ _) ⟨rfl, rfl⟩

/-- C1 (amended): whether `InsertOperation` succeeds depends only on the
inserted operation's own fields, never on the rows already stored — so
an operation whose `(session_id, sequence_number)` equals that of a
stored operation is accepted exactly as into an empty store, and
uniqueness of the pair is not enforced by the log store. -/
theorem insertOperation_ignores_existing_rows
    (tbl : List Storage.Operation) (op : Storage.Operation) :
    Storage.insertSucceeds tbl op = Storage.insertSucceeds [] op := by
  unfold Storage.insertSucceeds Storage.insertOperation
  cases hv : Storage.validateOperation op
  · rfl
  · cases hr : Storage.operationRowChecks op <;> simp [hr]

/-- Inserting with `insertByLt` grows the length by one. -/
theorem insertByLt_length {α : Type} (lt : α → α → Bool) (x : α) :
    ∀ l : List α, (Causality.insertByLt lt x l).length = l.length + 1
  | [] => rfl
  | y :: ys => by
    unfold Causality.insertByLt
    split
    · simp
    · simp [insertByLt_length lt x ys]

/-- `sortByLt` preserves length. -/
theorem sortByLt_length {α : Type} (lt : α → α → Bool) :
    ∀ l : List α, (Causality.sortByLt lt l).length = l.length
  | [] => rfl
  | x :: xs => by
    unfold Causality.sortByLt
    simp [insertByLt_length, sortByLt_length lt xs]

/-- The DFS stack loop never grows the chain list beyond `maxChains`. -/
theorem chainLoop_length_le (adj : String → List String)
    (rootFan maxDepth maxChains : Nat) :
    ∀ (fuel : Nat) (stack : List (List String))
      (chains : List Causality.CausalityChain),
      chains.length ≤ maxChains →
      (Causality.chainLoop adj rootFan maxDepth maxChains fuel stack
        chains).length ≤ maxChains
  | 0, _, _, h => h
  | _ + 1, [], _, h => h
  | fuel + 1, path :: stack, chains, h => by
    rw [Causality.chainLoop]
    split
    · exact h
    · rename_i hlt
      split
      · refine chainLoop_length_le adj rootFan maxDepth maxChains fuel stack
          (chains ++ [⟨path.reverse, path.length, rootFan⟩]) ?_
        have : chains.length < maxChains := Nat.lt_of_not_le hlt
        simp only [List.length_append, List.length_cons, List.length_nil]
        omega
      · exact chainLoop_length_le adj rootFan maxDepth maxChains fuel _ chains h

/-- A fold whose step preserves the chain-count bound preserves it. -/
theorem foldl_chains_length_le (maxChains : Nat)
    (f : List Causality.CausalityChain → String →
      List Causality.CausalityChain)
    (hf : ∀ acc r, acc.length ≤ maxChains → (f acc r).length ≤ maxChains) :
    ∀ (roots : List String) (acc : List Causality.CausalityChain),
      acc.length ≤ maxChains → (roots.foldl f acc).length ≤ maxChains
  | [], _, h => h
  | r :: rs, acc, h =>
    foldl_chains_length_le maxChains f hf rs (f acc r) (hf acc r h)

/-- `generateChains` emits at most `maxChains` chains. -/
theorem generateChains_length_le (adj : String → List String)
    (fanOut : String → Nat) (maxDepth maxChains fuel : Nat)
    (roots : List String) :
    (Causality.generateChains adj fanOut maxDepth maxChains fuel
      roots).length ≤ maxChains := by
  unfold Causality.generateChains
  refine foldl_chains_length_le maxChains _ ?_ roots [] (Nat.zero_le _)
  intro acc r hacc
  split
  · exact chainLoop_length_le adj (fanOut r) maxDepth maxChains fuel
      [[r]] acc hacc
  · exact hacc

/-- C6 (amended): `BuildCausalityChains` with a non-positive `maxChains`
argument collects at most 20 chains — the source's `defaultMaxChains` is
20, not the documented 10 — and on `bigGraph`, which offers 25
enumerable chains, exactly 20 are returned. -/
theorem buildCausalityChains_nonpositive_default :
    (∀ (g : Causality.CausalityGraph) (d m : Int),
      0 ≤ d → d ≤ 100000 → m ≤ 0 →
      ∀ cs, Causality.buildCausalityChains g d m = some cs →
        cs.length ≤ 20) ∧
    (Causality.buildCausalityChains Instances.bigGraph 0 0).map
      List.length = some 20 := by
  constructor
  · intro g d m hd0 hd1 hm cs hcs
    unfold Causality.buildCausalityChains at hcs
    rw [if_neg (by simp [Analysis.maxAnalysisOperations]; omega)] at hcs
    have hcs' := Option.some.inj hcs
    have hm20 : (Causality.normalizeChainLimits d m).2 = 20 := by
      simp [Causality.normalizeChainLimits, Causality.defaultMaxChains,
        Causality.maxCausalityChains, if_pos hm]
    rw [← hcs']
    unfold Causality.sortChains
    rw [sortByLt_length]
    rw [hm20]
    exact generateChains_length_le _ _ _ _ _ _
  · rfl

/-- Witness for the amended C6: the cap theorem applied to the concrete
graph and its computed 20-element chain list. -/
theorem buildCausalityChains_nonpositive_default_witness :
    Instances.bigChains.length ≤ 20 :=
  buildCausalityChains_nonpositive_default.1 Instances.bigGraph 0 0
    (by decide) (by decide) (by decide) Instances.bigChains rfl

/-- C6 (counterexample): on `bigGraph` (25 enumerable chains) with
non-positive limit arguments, `BuildCausalityChains` returns 20 chains,
not the 10 the claim states. -/
theorem buildCausalityChains_default_not_ten :
    (Causality.buildCausalityChains Instances.bigGraph 0 0).map
      List.length ≠ some 10 := by
  have h : (Causality.buildCausalityChains Instances.bigGraph 0 0).map
      List.length = some 20 := rfl
  rw [h]
  intro hc
  exact absurd (Option.some.inj hc) (by decide)

/-- C9: whenever `StepForward`'s internal cache update fails — the state
cache already holds `maxCacheSize` entries while the current operation
carries a non-empty payload, or the payload fails to deserialize —
`StepForward` returns the fetched operation together with a non-nil
error, but `currentIndex` has nevertheless already been advanced by one:
the failure is not atomic with respect to the cursor. -/
theorem stepForward_cache_failure_advances_cursor
    (decode : String → Option String) (e : Replay.ReplayEngine)
    (hidx : e.currentIndex < e.maxIndex)
    (hpay : (e.operations.getD e.currentIndex.toNat default).resourceData ≠ "")
    (hfail : e.maxCacheSize ≤ (e.stateCache.length : Int) ∨
      decode (e.operations.getD e.currentIndex.toNat default).resourceData =
        none) :
    (Replay.stepForward decode e).op =
      some (e.operations.getD e.currentIndex.toNat default) ∧
    (Replay.stepForward decode e).err ≠ none ∧
    (Replay.stepForward decode e).engine =
      { e with currentIndex := e.currentIndex + 1 } := by
  have hmax : ¬ e.maxIndex ≤ e.currentIndex := not_le.mpr hidx
  have hlen :
      ¬ (e.operations.getD e.currentIndex.toNat default).resourceData.length
        = 0 :=
    length_ne_zero_of_ne_empty _ hpay
  by_cases hfull : e.maxCacheSize ≤ (e.stateCache.length : Int)
  · have hres : Replay.stepForward decode e =
        ⟨some (e.operations.getD e.currentIndex.toNat default),
          some "cache update failed: cache size limit reached",
          { e with currentIndex := e.currentIndex + 1 }⟩ := by
      unfold Replay.stepForward
      rw [if_neg hmax]
      unfold Replay.updateCache
      dsimp only
      rw [if_neg hlen, if_pos hfull]
      rfl
    rw [hres]
    exact ⟨rfl, by simp, rfl⟩
  · have hdec :
        decode (e.operations.getD e.currentIndex.toNat default).resourceData
          = none := hfail.resolve_left hfull
    have hres : Replay.stepForward decode e =
        ⟨some (e.operations.getD e.currentIndex.toNat default),
          some "cache update failed: failed to unmarshal resource",
          { e with currentIndex := e.currentIndex + 1 }⟩ := by
      unfold Replay.stepForward
      rw [if_neg hmax]
      unfold Replay.updateCache
      dsimp only
      rw [if_neg hlen, if_neg hfull, hdec]
      rfl
    rw [hres]
    exact ⟨rfl, by simp, rfl⟩

/-- Witness for C9: a one-operation engine whose cache is at its
capacity of one entry; stepping forward returns the operation and an
error while the cursor has moved from 0 to 1. -/
theorem stepForward_cache_failure_advances_cursor_witness :
    (Replay.stepForward (fun _ => some "obj")
        Instances.fullCacheEngine).op =
      some (Instances.fullCacheEngine.operations.getD 0 default) ∧
    (Replay.stepForward (fun _ => some "obj")
        Instances.fullCacheEngine).err ≠ none ∧
    (Replay.stepForward (fun _ => some "obj")
        Instances.fullCacheEngine).engine =
      { Instances.fullCacheEngine with currentIndex := 1 } :=
  stepForward_cache_failure_advances_cursor (fun _ => some "obj")
    Instances.fullCacheEngine (by decide) (by decide) (Or.inl (by decide))

/-- Successful cache updates keep the cursor, the bound and the loaded
operations. -/
theorem updateCache_fields (decode : String → Option String)
    (e : Replay.ReplayEngine) (op : Storage.Operation) :
    ∀ e', Replay.updateCache decode e op = .ok e' →
      e'.currentIndex = e.currentIndex ∧ e'.maxIndex = e.maxIndex ∧
      e'.operations = e.operations := by
  intro e' h
  unfold Replay.updateCache at h
  split at h
  · cases h
    exact ⟨rfl, rfl, rfl⟩
  · split at h
    · cases h
    · split at h
      · cases h
      · cases h
        exact ⟨rfl, rfl, rfl⟩

/-- Every cursor command keeps `currentIndex` within `[0, maxIndex]` and
never changes `maxIndex` or the loaded operations. -/
theorem applyCmd_bounds (decode : String → Option String)
    (e : Replay.ReplayEngine) (c : Replay.Cmd)
    (h0 : 0 ≤ e.currentIndex) (h1 : e.currentIndex ≤ e.maxIndex) :
    0 ≤ (Replay.applyCmd decode e c).currentIndex ∧
    (Replay.applyCmd decode e c).currentIndex ≤
      (Replay.applyCmd decode e c).maxIndex ∧
    (Replay.applyCmd decode e c).maxIndex = e.maxIndex := by
  cases c with
  | forward =>
    simp only [Replay.applyCmd]
    unfold Replay.stepForward
    by_cases hend : e.maxIndex ≤ e.currentIndex
    · rw [if_pos hend]
      exact ⟨h0, h1, rfl⟩
    · rw [if_neg hend]
      dsimp only
      have hlt : e.currentIndex < e.maxIndex := lt_of_not_le hend
      cases hu : Replay.updateCache decode
          { e with currentIndex := e.currentIndex + 1 }
          (e.operations.getD e.currentIndex.toNat default) with
      | ok e'' =>
        dsimp only
        have hf := updateCache_fields decode _ _ e'' hu
        dsimp only at hf
        obtain ⟨hc, hm, -⟩ := hf
        rw [hc, hm]
        exact ⟨by omega, by omega, rfl⟩
      | error msg =>
        dsimp only
        exact ⟨by omega, by omega, rfl⟩
  | backward =>
    simp only [Replay.applyCmd]
    unfold Replay.stepBackward
    by_cases hbeg : e.currentIndex ≤ 0
    · rw [if_pos hbeg]
      exact ⟨h0, h1, rfl⟩
    · rw [if_neg hbeg]
      dsimp only
      exact ⟨by omega, by omega, rfl⟩
  | jump n =>
    simp only [Replay.applyCmd]
    unfold Replay.stepN
    by_cases hr : n < -Replay.maxStepSize ∨ n > Replay.maxStepSize
    · rw [if_pos hr]
      exact ⟨h0, h1, rfl⟩
    · rw [if_neg hr]
      dsimp only
      have hmax : 0 ≤ e.maxIndex := le_trans h0 h1
      refine ⟨?_, ?_, rfl⟩ <;> split <;> split <;> omega
  | restart =>
    exact ⟨le_refl 0, le_trans h0 h1, rfl⟩

/-- Folding cursor commands preserves the invariant and the bound. -/
theorem runCmds_bounds (decode : String → Option String) :
    ∀ (cmds : List Replay.Cmd) (e : Replay.ReplayEngine),
      0 ≤ e.currentIndex → e.currentIndex ≤ e.maxIndex →
      0 ≤ (Replay.runCmds decode e cmds).currentIndex ∧
      (Replay.runCmds decode e cmds).currentIndex ≤
        (Replay.runCmds decode e cmds).maxIndex ∧
      (Replay.runCmds decode e cmds).maxIndex = e.maxIndex
  | [], _, h0, h1 => ⟨h0, h1, rfl⟩
  | c :: cs, e, h0, h1 => by
    have hb := applyCmd_bounds decode e c h0 h1
    have ih := runCmds_bounds decode cs (Replay.applyCmd decode e c)
      hb.1 hb.2.1
    exact ⟨ih.1, ih.2.1, ih.2.2.trans hb.2.2⟩

/-- C7: for every engine built over loaded operations and every finite
sequence of step-forward, step-backward, step-by-delta (with deltas in
`[-1000, 1000]`) and reset commands, `0 ≤ current_index ≤ max_index`
holds afterwards — and hence after each call, as the command list is
arbitrary — where `max_index` is the number of loaded operations. -/
theorem replay_cursor_index_invariant (decode : String → Option String)
    (ops : List Storage.Operation) (sid : String) (cacheSize : Int)
    (e0 : Replay.ReplayEngine) (cmds : List Replay.Cmd)
    (hinit : Replay.newReplayEngine ops sid cacheSize = some e0)
    (_hdelta : ∀ n, Replay.Cmd.jump n ∈ cmds → -1000 ≤ n ∧ n ≤ 1000) :
    0 ≤ (Replay.runCmds decode e0 cmds).currentIndex ∧
    (Replay.runCmds decode e0 cmds).currentIndex ≤
      (Replay.runCmds decode e0 cmds).maxIndex ∧
    (Replay.runCmds decode e0 cmds).maxIndex = (ops.length : Int) := by
  have he0 : e0.currentIndex = 0 ∧ e0.maxIndex = (ops.length : Int) := by
    unfold Replay.newReplayEngine at hinit
    split at hinit
    · cases hinit
    · split at hinit
      · cases hinit
      · cases hinit
        exact ⟨rfl, rfl⟩
  have hb := runCmds_bounds decode cmds e0 (by omega)
    (by rw [he0.1, he0.2]; exact Int.ofNat_nonneg _)
  exact ⟨hb.1, hb.2.1, hb.2.2.trans he0.2⟩

/-- Witness for C7 on a one-operation engine and a concrete command
sequence exercising all four calls. -/
theorem replay_cursor_index_invariant_witness :
    0 ≤ (Replay.runCmds (fun _ => none)
        { operations := [Instances.opA], currentIndex := 0, maxIndex := 1,
          sessionID := "w", stateCache := [], maxCacheSize := 1000 }
        [.forward, .jump 5, .backward, .restart, .jump (-3)]).currentIndex ∧
    (Replay.runCmds (fun _ => none)
        { operations := [Instances.opA], currentIndex := 0, maxIndex := 1,
          sessionID := "w", stateCache := [], maxCacheSize := 1000 }
        [.forward, .jump 5, .backward, .restart, .jump (-3)]).currentIndex ≤
      (Replay.runCmds (fun _ => none)
        { operations := [Instances.opA], currentIndex := 0, maxIndex := 1,
          sessionID := "w", stateCache := [], maxCacheSize := 1000 }
        [.forward, .jump 5, .backward, .restart, .jump (-3)]).maxIndex ∧
    (Replay.runCmds (fun _ => none)
        { operations := [Instances.opA], currentIndex := 0, maxIndex := 1,
          sessionID := "w", stateCache := [], maxCacheSize := 1000 }
        [.forward, .jump 5, .backward, .restart, .jump (-3)]).maxIndex =
      (([Instances.opA] : List Storage.Operation).length : Int) :=
  replay_cursor_index_invariant (fun _ => none) [Instances.opA] "w" 1000
    { operations := [Instances.opA], currentIndex := 0, maxIndex := 1,
      sessionID := "w", stateCache := [], maxCacheSize := 1000 }
    [.forward, .jump 5, .backward, .restart, .jump (-3)]
    rfl (by
      intro n hn
      simp only [List.mem_cons, List.not_mem_nil, or_false] at hn
      rcases hn with h | h | h | h | h <;> cases h <;> omega)

/-- The slow-operation collection loop appends the threshold-filtered
entries, truncated to the remaining allowance of 100. -/
theorem slowLoop_spec (t : Int) :
    ∀ (l : List (Nat × Storage.Operation))
      (acc : List Analysis.SlowOperation), acc.length ≤ 100 →
      Analysis.slowLoop t l acc =
        acc ++
          (((l.filter fun p => t ≤ p.2.durationMs).take
            (100 - acc.length)).map fun p => ⟨p.1, p.2, p.2.durationMs⟩)
  | [], acc, _ => by simp [Analysis.slowLoop]
  | (i, op) :: rest, acc, h => by
    rw [Analysis.slowLoop]
    by_cases hacc : acc.length < 100
    · rw [if_pos hacc]
      by_cases hdur : op.durationMs ≥ t
      · rw [if_pos hdur]
        rw [slowLoop_spec t rest
          (acc ++ [(⟨i, op, op.durationMs⟩ : Analysis.SlowOperation)])
          (by simp only [List.length_append, List.length_cons,
            List.length_nil]; omega)]
        have hf : ((i, op) :: rest).filter (fun p => t ≤ p.2.durationMs) =
            (i, op) :: rest.filter fun p => t ≤ p.2.durationMs := by
          simp [List.filter_cons, hdur]
        rw [hf]
        have hsub : 100 - acc.length = (100 - (acc.length + 1)) + 1 := by
          omega
        rw [hsub, List.take_succ_cons]
        simp
      · rw [if_neg hdur]
        rw [slowLoop_spec t rest acc h]
        have hf : ((i, op) :: rest).filter (fun p => t ≤ p.2.durationMs) =
            rest.filter fun p => t ≤ p.2.durationMs := by
          simp [List.filter_cons, hdur]
        rw [hf]
    · rw [if_neg hacc]
      have hz : 100 - acc.length = 0 := by omega
      simp [hz]

/-- C8: `FindSlowOperations` on any accepted input returns exactly the
operations whose `duration_ms` reaches the threshold, in original index
order, truncated to the first 100 — and on scenario S4 (durations
100..190 with indices 2, 5, 8 raised to 1500, 1800, 2000) with threshold
1000, exactly the entries at indices 2, 5, 8 in that order. -/
theorem findSlowOperations_filter_take :
    (∀ (ops : List Storage.Operation) (t : Int),
      ops.length ≤ 100000 → 1 ≤ t → t ≤ 1000000 →
      Analysis.findSlowOperations ops t =
        .ok (Analysis.slowOperationsSpec ops t)) ∧
    (Analysis.findSlowOperations Instances.s4ops 1000).map
      (fun l => l.map Analysis.SlowOperation.index) = .ok [2, 5, 8] := by
  constructor
  · intro ops t hlen h1 h2
    unfold Analysis.findSlowOperations Analysis.slowOperationsSpec
    have hb : ¬ ops.length > Analysis.maxAnalysisOperations := by
      simp only [Analysis.maxAnalysisOperations]
      omega
    have ht : ¬ (t < 1 ∨ t > 1000000) := by omega
    rw [if_neg hb, if_neg ht]
    rw [slowLoop_spec t ops.enum [] (by simp)]
    simp
  · rfl

/-- Witness for C8: the general theorem applied to scenario S4 with
threshold 1000. -/
theorem findSlowOperations_filter_take_witness :
    Analysis.findSlowOperations Instances.s4ops 1000 =
      .ok (Analysis.slowOperationsSpec Instances.s4ops 1000) :=
  findSlowOperations_filter_take.1 Instances.s4ops 1000
    (by decide) (by decide) (by decide)

/-- The exact-match candidate scan: when a qualifying candidate (one
whose timestamp is at most the span start) exists or a best is already
held, the scan returns a result that is a qualifying list member or the
incoming best, and whose timestamp dominates every qualifying candidate
and the incoming best. -/
theorem bestExact_spec (startTs : Int) :
    ∀ (l : List Causality.OpWithIndex)
      (best : Option Causality.OpWithIndex),
      (∀ b, best = some b → b.op.timestamp ≤ startTs) →
      ((∃ c ∈ l, c.op.timestamp ≤ startTs) ∨ best.isSome) →
      ∃ m, Causality.bestExact startTs l best = some m ∧
        ((m ∈ l ∧ m.op.timestamp ≤ startTs) ∨ best = some m) ∧
        (∀ c ∈ l, c.op.timestamp ≤ startTs →
          c.op.timestamp ≤ m.op.timestamp) ∧
        (∀ b, best = some b → b.op.timestamp ≤ m.op.timestamp) := by
  intro l
  induction l with
  | nil =>
    intro best hbest hq
    cases best with
    | some b =>
      exact ⟨b, rfl, Or.inr rfl,
        fun c hc _ => absurd hc (List.not_mem_nil c),
        fun b' hb' => by cases hb'; exact le_refl _⟩
    | none =>
      rcases hq with ⟨c, hc, _⟩ | hs
      · exact absurd hc (List.not_mem_nil c)
      · exact absurd hs (by simp)
  | cons c rest ih =>
    intro best hbest hq
    rw [Causality.bestExact.eq_def]
    dsimp only
    by_cases hskip : startTs < c.op.timestamp
    · rw [if_pos hskip]
      have hq' : (∃ d ∈ rest, d.op.timestamp ≤ startTs) ∨ best.isSome := by
        rcases hq with ⟨d, hd, hdts⟩ | hs
        · rcases List.mem_cons.mp hd with rfl | hd'
          · exact absurd hdts (not_le.mpr hskip)
          · exact Or.inl ⟨d, hd', hdts⟩
        · exact Or.inr hs
      obtain ⟨m, hm, hmem, hmaxl, hmaxb⟩ := ih best hbest hq'
      refine ⟨m, hm, ?_, ?_, hmaxb⟩
      · rcases hmem with ⟨hm1, hm2⟩ | hb
        · exact Or.inl ⟨List.mem_cons_of_mem _ hm1, hm2⟩
        · exact Or.inr hb
      · intro d hd hdts
        rcases List.mem_cons.mp hd with rfl | hd'
        · exact absurd hdts (not_le.mpr hskip)
        · exact hmaxl d hd' hdts
    · rw [if_neg hskip]
      have hcts : c.op.timestamp ≤ startTs := not_lt.mp hskip
      cases best with
      | none =>
        obtain ⟨m, hm, hmem, hmaxl, hmaxb⟩ := ih (some c)
          (fun b hb => by cases hb; exact hcts) (Or.inr rfl)
        refine ⟨m, hm, ?_, ?_, ?_⟩
        · rcases hmem with ⟨hm1, hm2⟩ | hb
          · exact Or.inl ⟨List.mem_cons_of_mem _ hm1, hm2⟩
          · cases hb
            exact Or.inl ⟨List.mem_cons_self _ _, hcts⟩
        · intro d hd hdts
          rcases List.mem_cons.mp hd with rfl | hd'
          · exact hmaxb _ rfl
          · exact hmaxl d hd' hdts
        · intro b hb
          cases hb
      | some b =>
        dsimp only
        by_cases hbc : b.op.timestamp < c.op.timestamp
        · rw [if_pos hbc]
          obtain ⟨m, hm, hmem, hmaxl, hmaxb⟩ := ih (some c)
            (fun b' hb' => by cases hb'; exact hcts) (Or.inr rfl)
          refine ⟨m, hm, ?_, ?_, ?_⟩
          · rcases hmem with ⟨hm1, hm2⟩ | hb'
            · exact Or.inl ⟨List.mem_cons_of_mem _ hm1, hm2⟩
            · cases hb'
              exact Or.inl ⟨List.mem_cons_self _ _, hcts⟩
          · intro d hd hdts
            rcases List.mem_cons.mp hd with rfl | hd'
            · exact hmaxb _ rfl
            · exact hmaxl d hd' hdts
          · intro b' hb'
            cases hb'
            exact le_trans (le_of_lt hbc) (hmaxb _ rfl)
        · rw [if_neg hbc]
          have hcb : c.op.timestamp ≤ b.op.timestamp := not_lt.mp hbc
          obtain ⟨m, hm, hmem, hmaxl, hmaxb⟩ := ih (some b) hbest
            (Or.inr rfl)
          refine ⟨m, hm, ?_, ?_, ?_⟩
          · rcases hmem with ⟨hm1, hm2⟩ | hb'
            · exact Or.inl ⟨List.mem_cons_of_mem _ hm1, hm2⟩
            · exact Or.inr hb'
          · intro d hd hdts
            rcases List.mem_cons.mp hd with rfl | hd'
            · exact le_trans hcb (hmaxb _ rfl)
            · exact hmaxl d hd' hdts
          · exact hmaxb

/-- C5: for a span carrying both trigger fields whose exact write index
holds at least one candidate with timestamp at most the span start, the
trigger-resolution step adds exactly one `op_to_span` edge into the
span, sourced at a qualifying exact candidate whose timestamp dominates
every qualifying candidate — and the result is the same for every
fallback (`rv_by_uid`) index, i.e. the fallback is not consulted. -/
theorem spanTriggerEdge_exact_latest
    (exact : String → List Causality.OpWithIndex)
    (rv1 rv2 : String → List Causality.RvOp)
    (span : Causality.ReconcileSpan) (c : Causality.OpWithIndex)
    (hu : span.triggerUID ≠ "") (hv : span.triggerRV ≠ "")
    (hc : c ∈ exact (span.triggerUID ++ "|" ++ span.triggerRV))
    (hts : c.op.timestamp ≤ span.startTs) :
    ∃ m, Causality.findExactMatch exact span = some m ∧
      m ∈ exact (span.triggerUID ++ "|" ++ span.triggerRV) ∧
      m.op.timestamp ≤ span.startTs ∧
      (∀ d ∈ exact (span.triggerUID ++ "|" ++ span.triggerRV),
        d.op.timestamp ≤ span.startTs →
        d.op.timestamp ≤ m.op.timestamp) ∧
      Causality.spanTriggerEdge exact rv1 span =
        some ⟨Causality.opNodeID m.op m.index, Causality.spanNodeID span,
          .opToSpan⟩ ∧
      Causality.spanTriggerEdge exact rv1 span =
        Causality.spanTriggerEdge exact rv2 span := by
  have hne : exact (span.triggerUID ++ "|" ++ span.triggerRV) ≠ [] :=
    List.ne_nil_of_mem hc
  obtain ⟨m, hm, hmem, hmaxl, -⟩ := bestExact_spec span.startTs
    (exact (span.triggerUID ++ "|" ++ span.triggerRV)) none
    (fun b hb => by cases hb) (Or.inl ⟨c, hc, hts⟩)
  have hfind : Causality.findExactMatch exact span = some m := by
    unfold Causality.findExactMatch
    dsimp only
    rw [if_neg hne]
    exact hm
  have hmem' : m ∈ exact (span.triggerUID ++ "|" ++ span.triggerRV) ∧
      m.op.timestamp ≤ span.startTs := by
    rcases hmem with h | h
    · exact h
    · cases h
  have hcond : span.triggerUID.length > 0 ∧ span.triggerRV.length > 0 :=
    ⟨Nat.pos_of_ne_zero (length_ne_zero_of_ne_empty _ hu),
      Nat.pos_of_ne_zero (length_ne_zero_of_ne_empty _ hv)⟩
  have hedge : ∀ rv : String → List Causality.RvOp,
      Causality.spanTriggerEdge exact rv span =
        some ⟨Causality.opNodeID m.op m.index, Causality.spanNodeID span,
          .opToSpan⟩ := by
    intro rv
    unfold Causality.spanTriggerEdge
    rw [if_pos hcond, hfind]
  exact ⟨m, hfind, hmem'.1, hmem'.2, hmaxl, hedge rv1,
    (hedge rv1).trans (hedge rv2).symm⟩

/-- Witness for C5: the exact index holding two writes under key
`"u1|5"` (timestamps 90 and 100) and a span starting at 102; the match
is the timestamp-100 write, and both concrete fallback indexes yield the
same single edge. -/
theorem spanTriggerEdge_exact_latest_witness :
    ∃ m, Causality.findExactMatch Instances.exactIdx Instances.spanS1 =
        some m ∧
      m ∈ Instances.exactIdx
        (Instances.spanS1.triggerUID ++ "|" ++
          Instances.spanS1.triggerRV) ∧
      m.op.timestamp ≤ Instances.spanS1.startTs ∧
      (∀ d ∈ Instances.exactIdx
          (Instances.spanS1.triggerUID ++ "|" ++
            Instances.spanS1.triggerRV),
        d.op.timestamp ≤ Instances.spanS1.startTs →
        d.op.timestamp ≤ m.op.timestamp) ∧
      Causality.spanTriggerEdge Instances.exactIdx Instances.rvIdxA
          Instances.spanS1 =
        some ⟨Causality.opNodeID m.op m.index,
          Causality.spanNodeID Instances.spanS1, .opToSpan⟩ ∧
      Causality.spanTriggerEdge Instances.exactIdx Instances.rvIdxA
          Instances.spanS1 =
        Causality.spanTriggerEdge Instances.exactIdx Instances.rvIdxB
          Instances.spanS1 :=
  spanTriggerEdge_exact_latest Instances.exactIdx Instances.rvIdxA
    Instances.rvIdxB Instances.spanS1 ⟨Instances.writeOp, 0⟩
    (by decide) (by decide) (by decide) (by decide)

end Theorems
